import Mathlib

/-!
Shallow embedding of the SSE streaming bridge of `app/main.py`: the
redis-backed subscribe generator, the polling `event_generator` loop over
the global `messages` list and `COUNT` counter, and the Accept-header
negotiation of the two streaming endpoints.
-/

/-- An SSE envelope as yielded by the generators: the dicts
`{"event": ..., "data": ...}` and `{"event": ..., "id": ..., "retry": ..., "data": ...}`. -/
structure Envelope where
  event : String
  id : Option Nat
  retry : Option Nat
  data : String
deriving DecidableEq

/-- Python list membership test for `[a]`-style lists of chars:
does `hay` start with `needle`? -/
def listStartsWith : List Char → List Char → Bool
  | _, [] => true
  | [], _ :: _ => false
  | h :: hs, n :: ns => h == n && listStartsWith hs ns

/-- Python substring containment `needle in hay` on char lists. -/
def listContainsSub (hay needle : List Char) : Bool :=
  match hay with
  | [] => listStartsWith [] needle
  | _ :: hs => listStartsWith hay needle || listContainsSub hs needle

/-- Python `needle in hay` for strings. -/
def strContainsSub (hay needle : String) : Bool :=
  listContainsSub hay.data needle.data

/-- Observable actions of the `subscribe` async generator: the call to
`redis.subscribe`, a release of the subscription (never present in the
source, the type records the possibility), a yielded envelope, and an
exception propagating out of the generator. -/
inductive SubStep where
  | subCall : SubStep
  | unsubCall : SubStep
  | envOut : Envelope → SubStep
  | raised : SubStep
deriving DecidableEq

/-- Envelope yielded at line 85 of `main.py`: `{"event": "message", "data": data}`. -/
def mkMessageEnvelope (data : String) : Envelope :=
  ⟨"message", none, none, data⟩

/-- How one run of the `subscribe` generator ends: `wait_message` returns
`False` (broker closed the channel); the peer disconnects after `k`
envelopes and the generator is closed at its yield point; or the broker
connection fails after `k` envelopes and the exception propagates. -/
inductive ExitCond where
  | endOfStream : ExitCond
  | cancelled : Nat → ExitCond
  | brokerFail : Nat → ExitCond
deriving DecidableEq

/-- Trace of the `subscribe` generator (lines 76-85 of `main.py`).
`decode` stands for the UTF-8 decoding done by
`channel_subscription.get(encoding=utf-8)`; `subOk` is whether
`redis.subscribe` succeeds; `payloads` is the sequence the broker
delivers; `ec` is how the run ends.  The body is a faithful
transcription: subscribe first, then a loop that yields one
`message` envelope per payload in delivery order; no release of the
subscription appears anywhere in the body. -/
def subscribeGen {β : Type} (decode : β → String) (subOk : Bool)
    (payloads : List β) (ec : ExitCond) : List SubStep :=
  if subOk then
    SubStep.subCall ::
      (match ec with
       | ExitCond.endOfStream =>
           payloads.map (fun p => SubStep.envOut (mkMessageEnvelope (decode p)))
       | ExitCond.cancelled k =>
           (payloads.take k).map (fun p => SubStep.envOut (mkMessageEnvelope (decode p)))
       | ExitCond.brokerFail k =>
           (payloads.take k).map (fun p => SubStep.envOut (mkMessageEnvelope (decode p)))
             ++ [SubStep.raised])
  else [SubStep.subCall, SubStep.raised]

/-- The envelopes emitted along a trace, in order. -/
def emittedEnvs (t : List SubStep) : List Envelope :=
  t.filterMap (fun a => match a with
    | SubStep.envOut e => some e
    | _ => none)

/-- Number of subscription releases in a trace. -/
def countUnsub (t : List SubStep) : Nat :=
  t.countP (fun a => match a with
    | SubStep.unsubCall => true
    | _ => false)

/-- Number of `redis.subscribe` invocations in a trace. -/
def countSubCalls (t : List SubStep) : Nat :=
  t.countP (fun a => match a with
    | SubStep.subCall => true
    | _ => false)

/-- A queued message: the `(event_name, payload)` pairs of the global
`messages` list in `main.py`. -/
abbrev Msg := String × String

/-- The initial contents of the global `messages` list (lines 98-104). -/
def messagesInit : List Msg :=
  [("message", "foo"), ("message", "bar"), ("message", "foobar"),
   ("new_message", "honk"), ("new_message", "honk hase")]

/-- Initial value of the global counter `COUNT` (line 90). -/
def COUNT : Nat := 0

/-- Fixed retry hint, `MESSAGE_STREAM_RETRY_TIMEOUT` (line 88), in ms. -/
def MESSAGE_STREAM_RETRY_TIMEOUT : Nat := 15000

/-- Python `list.pop()`: remove and return the last element, or fail
(`IndexError`) when the list is empty. -/
def popLast {α : Type} : List α → Option (α × List α)
  | [] => none
  | a :: rest =>
    match popLast rest with
    | none => some (a, [])
    | some (x, ys) => some (x, a :: ys)

/-- Mutable state the polling `event_generator` reads and writes: the
shared `messages` list and the global `COUNT`. -/
structure PollSt where
  messages : List Msg
  count : Nat
deriving DecidableEq

/-- Initial process-wide polling state: `messages` as initialised at
module load and `COUNT = 0`. -/
def initialPollSt : PollSt :=
  ⟨messagesInit, COUNT⟩

/-- Envelope yielded at lines 128-133 of `main.py` after `increment()`:
event from the popped pair, `id` the incremented counter, fixed retry. -/
def mkPollEnvelope (m : Msg) (c : Nat) : Envelope :=
  ⟨m.1, some c, some MESSAGE_STREAM_RETRY_TIMEOUT, m.2⟩

/-- Outcome of one iteration of the `while True` loop of
`event_generator`: `halted` when `request.is_disconnected()` was true
and the loop `break`s; `errored` if `messages.pop()` were to raise
`IndexError`; otherwise the loop continues with the new state, having
yielded at most one envelope. -/
inductive TickResult where
  | halted : TickResult
  | errored : TickResult
  | cont : PollSt → Option Envelope → TickResult
deriving DecidableEq

/-- One iteration of `event_generator` (lines 117-135): check the
disconnect signal first; then, if `len(messages)` is non-zero, pop the
last item, increment the counter and yield an envelope; otherwise yield
nothing and sleep until the next tick.  The check, the pop and the
increment all happen between two awaits, so the whole iteration is one
atomic step of the cooperative scheduler. -/
def tick (disconnected : Bool) (s : PollSt) : TickResult :=
  if disconnected then TickResult.halted
  else if s.messages.length ≠ 0 then
    match popLast s.messages with
    | none => TickResult.errored
    | some (msg, rest) =>
        TickResult.cont ⟨rest, s.count + 1⟩ (some (mkPollEnvelope msg (s.count + 1)))
  else TickResult.cont s none

/-- Status of a finite run of the polling loop. -/
inductive RunStatus where
  | running : RunStatus
  | halted : RunStatus
  | errored : RunStatus
deriving DecidableEq

/-- Run `event_generator` for as many ticks as there are entries in
`ds`, where the i-th entry is what `request.is_disconnected()` returns
at the i-th iteration.  Returns the final state, the envelopes yielded
in order, and whether the loop is still running, has `break`ed on a
disconnect, or raised. -/
def runPoll : List Bool → PollSt → PollSt × List Envelope × RunStatus
  | [], s => (s, [], RunStatus.running)
  | d :: ds, s =>
    match tick d s with
    | TickResult.halted => (s, [], RunStatus.halted)
    | TickResult.errored => (s, [], RunStatus.errored)
    | TickResult.cont s₁ e =>
      match runPoll ds s₁ with
      | (s₂, es, st) => (s₂, e.toList ++ es, st)

/-- Whether a tick outcome is the `IndexError` case. -/
def isErrored (r : TickResult) : Bool :=
  match r with
  | TickResult.errored => true
  | _ => false

/-- A queue item instrumented with a ghost identity tag, so that
"the same item" is meaningful even when two items carry equal payloads
(the `/apps` endpoint always appends the same pair). -/
structure TaggedMsg where
  tag : Nat
  msg : Msg
deriving DecidableEq

/-- The `/apps` endpoint's append (lines 204-208): `("message", "yeah")`. -/
def appsAppend : Msg := ("message", "yeah")

/-- One atomic step of the process: either some producer endpoint
appends to the shared `messages` list, or one polling session runs one
iteration of its loop.  Steps are atomic because the code suspends only
at `await` points, which separate whole iterations. -/
inductive PollAction where
  | tickAct : Nat → Bool → PollAction
  | appendAct : Msg → PollAction
deriving DecidableEq

/-- Record of one envelope delivery: which session emitted it and the
ghost tag of the queue item it consumed. -/
structure Delivery where
  sid : Nat
  tag : Nat
  env : Envelope
deriving DecidableEq

/-- Process-wide state seen by all concurrently scheduled polling
sessions: the shared queue (with ghost tags), the next fresh tag, the
global `COUNT`, the set of sessions whose loops have `break`ed, and the
history of deliveries across all sessions. -/
structure SharedSt where
  queue : List TaggedMsg
  tagCtr : Nat
  count : Nat
  halted : List Nat
  deliveries : List Delivery
deriving DecidableEq

/-- One interleaved step.  An append pushes a freshly tagged item at the
end of the queue.  A tick of a halted session does nothing; a tick that
observes a disconnect halts its session; otherwise the session runs the
body of `event_generator`: emptiness check, `messages.pop()`,
`increment()`, yield.  `none` is the `IndexError` outcome of the pop. -/
def stepShared (s : SharedSt) (a : PollAction) : Option SharedSt :=
  match a with
  | PollAction.appendAct m =>
      some ⟨s.queue ++ [⟨s.tagCtr, m⟩], s.tagCtr + 1, s.count, s.halted, s.deliveries⟩
  | PollAction.tickAct sid disc =>
      if sid ∈ s.halted then some s
      else if disc then
        some ⟨s.queue, s.tagCtr, s.count, sid :: s.halted, s.deliveries⟩
      else if s.queue.length ≠ 0 then
        match popLast s.queue with
        | none => none
        | some (it, rest) =>
            some ⟨rest, s.tagCtr, s.count + 1, s.halted,
                  s.deliveries ++ [⟨sid, it.tag, mkPollEnvelope it.msg (s.count + 1)⟩]⟩
      else some s

/-- Run a whole interleaving of session ticks and producer appends. -/
def runShared (s : SharedSt) : List PollAction → Option SharedSt
  | [] => some s
  | a :: acts =>
    match stepShared s a with
    | none => none
    | some s₁ => runShared s₁ acts

/-- Ghost tags live in the state: still queued, or already delivered. -/
def tagsOf (s : SharedSt) : List Nat :=
  s.queue.map TaggedMsg.tag ++ s.deliveries.map Delivery.tag

/-- Well-formedness of the instrumentation: every tag in the state is
unique and below the fresh-tag counter. -/
def SharedInv (s : SharedSt) : Prop :=
  (tagsOf s).Nodup ∧ ∀ t ∈ tagsOf s, t < s.tagCtr

instance (s : SharedSt) : Decidable (SharedInv s) := by
  unfold SharedInv; infer_instance

/-- The shared state at process start: the module-level `messages`
entries tagged 0 to 4, no session halted, nothing delivered. -/
def initialSharedSt : SharedSt :=
  ⟨(messagesInit.enum.map (fun p => ⟨p.1, p.2⟩)), messagesInit.length, COUNT, [], []⟩

/-- Python errors the endpoints can raise: `"..." not in accept` with
`accept = None` raises `TypeError: argument of type NoneType is not
iterable`. -/
inductive PyErr where
  | typeErrorNoneNotIterable : PyErr
deriving DecidableEq

/-- Python `needle in obj` where `obj` is an optional string (the
`accept: str = Header(None)` parameter): raises on `None`. -/
def pyInStr (needle : String) (obj : Option String) : Except PyErr Bool :=
  match obj with
  | none => Except.error PyErr.typeErrorNoneNotIterable
  | some s => Except.ok (strContainsSub s needle)

/-- What a streaming endpoint hands back: the `sse_only.html` template
response, or an `EventSourceResponse` wrapping a generator whose trace
is recorded. -/
inductive EndpointResp where
  | sseOnlyPage : EndpointResp
  | eventSource : List SubStep → EndpointResp
deriving DecidableEq

/-- `redis.subscribe` invocations reachable from a response: zero for
the plain template page, the generator's count otherwise. -/
def respSubCalls (r : EndpointResp) : Nat :=
  match r with
  | EndpointResp.sseOnlyPage => 0
  | EndpointResp.eventSource t => countSubCalls t

/-- Envelopes a response can ever emit: none for the template page. -/
def respEnvs (r : EndpointResp) : List Envelope :=
  match r with
  | EndpointResp.sseOnlyPage => []
  | EndpointResp.eventSource t => emittedEnvs t

/-- The `/sse/stream` endpoint (lines 65-73): if `"text/event-stream"
not in accept` return the `sse_only.html` template, else wrap
`subscribe(channel, redis)` in an `EventSourceResponse`.  The broker
behaviour parameters fix the trace the generator would produce. -/
def sseStreamEndpoint (accept : Option String) (subOk : Bool)
    (payloads : List String) (ec : ExitCond) : Except PyErr EndpointResp :=
  match pyInStr "text/event-stream" accept with
  | Except.error e => Except.error e
  | Except.ok b =>
    if !b then Except.ok EndpointResp.sseOnlyPage
    else Except.ok (EndpointResp.eventSource (subscribeGen (fun s => s) subOk payloads ec))

/-- What the `/events` endpoint hands back. -/
inductive PollResp where
  | sseOnlyPage : PollResp
  | pollingSource : PollResp
deriving DecidableEq

/-- The `/events` endpoint (lines 107-137): same negotiation, then an
`EventSourceResponse` around the polling `event_generator`. -/
def eventsEndpoint (accept : Option String) : Except PyErr PollResp :=
  match pyInStr "text/event-stream" accept with
  | Except.error e => Except.error e
  | Except.ok b =>
    if !b then Except.ok PollResp.sseOnlyPage
    else Except.ok PollResp.pollingSource

/-! ## Helper lemmas -/

lemma popLast_isSome {α : Type} : ∀ (l : List α), l ≠ [] → (popLast l).isSome = true := by
  intro l h
  cases l with
  | nil => exact absurd rfl h
  | cons a rest =>
    cases h' : popLast rest with
    | none => simp [popLast, h']
    | some p => simp [popLast, h']

lemma popLast_append_singleton {α : Type} : ∀ (ys : List α) (x : α),
    popLast (ys ++ [x]) = some (x, ys) := by
  intro ys x
  induction ys with
  | nil => rfl
  | cons a ys ih => simp [popLast, ih]

lemma popLast_eq_some {α : Type} : ∀ (l : List α) (x : α) (ys : List α),
    popLast l = some (x, ys) → l = ys ++ [x] := by
  intro l
  induction l with
  | nil => intro x ys h; exact absurd h (by simp [popLast])
  | cons a rest ih =>
    intro x ys h
    cases h' : popLast rest with
    | none =>
      cases rest with
      | nil =>
        simp [popLast] at h
        simp [h.1, h.2]
      | cons b r =>
        have := popLast_isSome (b :: r) (by simp)
        rw [h'] at this
        simp at this
    | some p =>
      obtain ⟨x', ys'⟩ := p
      simp [popLast, h'] at h
      obtain ⟨hx, hy⟩ := h
      subst hx
      subst hy
      simp [ih x' ys' h']

lemma emittedEnvs_cons_subCall (t : List SubStep) :
    emittedEnvs (SubStep.subCall :: t) = emittedEnvs t := by
  simp [emittedEnvs]

lemma emittedEnvs_map_envOut {β : Type} (g : β → Envelope) (l : List β) :
    emittedEnvs (l.map (fun p => SubStep.envOut (g p))) = l.map g := by
  induction l with
  | nil => rfl
  | cons a l ih => simp [emittedEnvs] at ih ⊢; exact ih

/-! ## Claims about the subscription stream adapter -/

/-- Claim C1: for every sequence of payloads the broker delivers to one
active subscription, the `subscribe` generator yields exactly one
envelope per payload, each with event `"message"` and data the payload
decoded as UTF-8 text, strictly in delivery order (no batching,
reordering, skipping or duplication). -/
theorem subscribe_one_envelope_per_payload {β : Type} (decode : β → String)
    (payloads : List β) :
    emittedEnvs (subscribeGen decode true payloads ExitCond.endOfStream)
        = payloads.map (fun p => ⟨"message", none, none, decode p⟩) ∧
    (emittedEnvs (subscribeGen decode true payloads ExitCond.endOfStream)).length
        = payloads.length := by
  have h : emittedEnvs (subscribeGen decode true payloads ExitCond.endOfStream)
      = payloads.map (fun p => mkMessageEnvelope (decode p)) := by
    rw [subscribeGen]
    simp only [if_pos]
    rw [emittedEnvs_cons_subCall]
    exact emittedEnvs_map_envOut (fun p => mkMessageEnvelope (decode p)) payloads
  refine ⟨h.trans ?_, by rw [h]; simp⟩
  rfl

/-- Claim C8: if `redis.subscribe` fails, the stream produces no
envelope at all: the trace is the subscribe attempt followed by the
propagating exception. -/
theorem failed_subscribe_emits_nothing {β : Type} (decode : β → String)
    (payloads : List β) (ec : ExitCond) :
    subscribeGen decode false payloads ec = [SubStep.subCall, SubStep.raised] ∧
    emittedEnvs (subscribeGen decode false payloads ec) = [] := by
  constructor
  · rfl
  · rfl

/-- Claim C4, counterexample: on the normal-completion exit path with a
single delivered payload, the `subscribe` generator performs zero
releases of the subscription, not exactly one as claimed. -/
theorem subscribe_release_counterexample :
    countUnsub (subscribeGen (fun s => s) true ["hello"] ExitCond.endOfStream) = 0 ∧
    ((countUnsub (subscribeGen (fun s => s) true ["hello"] ExitCond.endOfStream) == 1)
        = false) := by
  constructor
  · rfl
  · rfl

lemma countUnsub_map_envOut {β : Type} (g : β → Envelope) (l : List β) :
    countUnsub (l.map (fun p => SubStep.envOut (g p))) = 0 := by
  induction l with
  | nil => rfl
  | cons a l ih => simp [countUnsub, List.countP_cons]

/-- Claim C4, amended: the `subscribe` generator never releases the
broker subscription on any exit path — normal completion, broker
failure (at entry or mid-stream) or cancellation by peer disconnect:
its body contains no unsubscribe, so the count of releases is zero,
not one; teardown is left to the runtime outside the adapter. -/
theorem subscribe_never_releases {β : Type} (decode : β → String) (subOk : Bool)
    (payloads : List β) (ec : ExitCond) :
    countUnsub (subscribeGen decode subOk payloads ec) = 0 := by
  cases subOk with
  | false => rfl
  | true =>
    cases ec with
    | endOfStream =>
      simp [subscribeGen, countUnsub, List.countP_cons]
    | cancelled k =>
      simpa [subscribeGen, countUnsub, List.countP_cons] using
        countUnsub_map_envOut (fun p => mkMessageEnvelope (decode p)) (payloads.take k)
    | brokerFail k =>
      have h := countUnsub_map_envOut (fun p => mkMessageEnvelope (decode p)) (payloads.take k)
      simp [subscribeGen, countUnsub, List.countP_cons, List.countP_append] at h ⊢
      exact h

/-! ## Claims about the polling adapter and the endpoints -/

/-- Claim C2: from queue `[a, b, c]` (appended in that order), no further
appends and a connected peer, three consecutive ticks of
`event_generator` yield envelopes carrying `c`, then `b`, then `a`
(pop from the end, last-in-first-out), with strictly increasing
sequence ids, and the loop is still running afterwards. -/
theorem eventGenerator_three_ticks_lifo (a b c : Msg) (n : Nat) :
    runPoll [false, false, false] ⟨[a, b, c], n⟩
        = (⟨[], n + 3⟩,
           [mkPollEnvelope c (n + 1), mkPollEnvelope b (n + 2), mkPollEnvelope a (n + 3)],
           RunStatus.running) ∧
    n + 1 < n + 2 ∧ n + 2 < n + 3 := by
  refine ⟨rfl, by omega, by omega⟩

/-- Claim C10: with the `Accept` header absent (`accept = None`), both
streaming endpoints raise a `TypeError` from the membership test
`"text/event-stream" not in None` instead of returning the
informational page. -/
theorem missing_accept_header_raises (subOk : Bool) (payloads : List String)
    (ec : ExitCond) :
    sseStreamEndpoint none subOk payloads ec
        = Except.error PyErr.typeErrorNoneNotIterable ∧
    eventsEndpoint none = Except.error PyErr.typeErrorNoneNotIterable := by
  exact ⟨rfl, rfl⟩

/-- Claim C3: a request whose `Accept` header value does not contain the
substring `"text/event-stream"` gets the plain `sse_only.html`
informational response from both streaming endpoints; no adapter is
started, no envelope can ever be emitted, and `redis.subscribe` is
never invoked. -/
theorem nonSse_request_never_subscribes (s : String) (subOk : Bool)
    (payloads : List String) (ec : ExitCond)
    (h : strContainsSub s "text/event-stream" = false) :
    sseStreamEndpoint (some s) subOk payloads ec = Except.ok EndpointResp.sseOnlyPage ∧
    respSubCalls EndpointResp.sseOnlyPage = 0 ∧
    respEnvs EndpointResp.sseOnlyPage = [] ∧
    eventsEndpoint (some s) = Except.ok PollResp.sseOnlyPage := by
  refine ⟨?_, rfl, rfl, ?_⟩ <;> simp [sseStreamEndpoint, eventsEndpoint, pyInStr, h]

/-- Concrete instance of claim C3's theorem: a request with
`Accept: text/html` against a healthy broker. -/
theorem nonSse_request_never_subscribes_witness :
    sseStreamEndpoint (some "text/html") true ["x"] ExitCond.endOfStream
        = Except.ok EndpointResp.sseOnlyPage ∧
    respSubCalls EndpointResp.sseOnlyPage = 0 ∧
    respEnvs EndpointResp.sseOnlyPage = [] ∧
    eventsEndpoint (some "text/html") = Except.ok PollResp.sseOnlyPage :=
  nonSse_request_never_subscribes "text/html" true ["x"] ExitCond.endOfStream (by decide)

/-- Claim C9: the pop in `event_generator` is guarded by the emptiness
check of the same atomic iteration, so it never raises: no tick of the
single-session loop ever reaches the `IndexError` outcome, and no step
of the interleaved multi-session model does either. -/
theorem pop_guarded_never_fails :
    (∀ (d : Bool) (s : PollSt), isErrored (tick d s) = false) ∧
    (∀ (s : SharedSt) (a : PollAction), (stepShared s a).isSome = true) := by
  constructor
  · intro d s
    cases d with
    | true => rfl
    | false =>
      by_cases h : s.messages = []
      · simp [tick, h, isErrored]
      · have hs := popLast_isSome s.messages h
        obtain ⟨p, hp⟩ := Option.isSome_iff_exists.mp hs
        obtain ⟨x, ys⟩ := p
        simp [tick, h, hp, isErrored]
  · intro s a
    cases a with
    | appendAct m => rfl
    | tickAct sid disc =>
      by_cases hh : sid ∈ s.halted
      · simp [stepShared, hh]
      · cases disc with
        | true => simp [stepShared, hh]
        | false =>
          by_cases hq : s.queue = []
          · simp [stepShared, hh, hq]
          · have hs := popLast_isSome s.queue hq
            obtain ⟨p, hp⟩ := Option.isSome_iff_exists.mp hs
            obtain ⟨x, ys⟩ := p
            simp [stepShared, hh, hq, hp]

lemma tick_false_cases (s : PollSt) :
    (tick false s = TickResult.cont s none ∧ s.messages = []) ∨
    (∃ msg rest, popLast s.messages = some (msg, rest) ∧
      tick false s
        = TickResult.cont ⟨rest, s.count + 1⟩ (some (mkPollEnvelope msg (s.count + 1)))) := by
  by_cases h : s.messages = []
  · exact Or.inl ⟨by simp [tick, h], h⟩
  · right
    obtain ⟨p, hp⟩ := Option.isSome_iff_exists.mp (popLast_isSome s.messages h)
    obtain ⟨msg, rest⟩ := p
    exact ⟨msg, rest, hp, by simp [tick, h, hp]⟩

lemma runPoll_retry_ids_aux : ∀ (ds : List Bool) (s : PollSt),
    (∀ e ∈ (runPoll ds s).2.1,
        e.retry = some MESSAGE_STREAM_RETRY_TIMEOUT ∧
        ∃ k, e.id = some k ∧ s.count < k ∧ k ≤ (runPoll ds s).1.count) ∧
    s.count ≤ (runPoll ds s).1.count ∧
    List.Pairwise (fun x y => x < y) ((runPoll ds s).2.1.filterMap Envelope.id) := by
  intro ds
  induction ds with
  | nil => intro s; simp [runPoll]
  | cons d ds ih =>
    intro s
    cases d with
    | true => simp [runPoll, tick]
    | false =>
      rcases tick_false_cases s with ⟨ht, _⟩ | ⟨msg, rest, _, ht⟩
      · rcases hre : runPoll ds s with ⟨s₂, es, st⟩
        have ih' := ih s
        rw [hre] at ih'
        simp only [runPoll, ht, hre, Option.toList_none, List.nil_append]
        exact ih'
      · rcases hre : runPoll ds ⟨rest, s.count + 1⟩ with ⟨s₂, es, st⟩
        have ih' := ih ⟨rest, s.count + 1⟩
        rw [hre] at ih'
        obtain ⟨ihMem, ihLe, ihPw⟩ := ih'
        simp only [runPoll, ht, hre, Option.toList_some, List.singleton_append]
        have hstep : s.count + 1 ≤ s₂.count := by simpa using ihLe
        refine ⟨?_, Nat.le_of_succ_le hstep, ?_⟩
        · intro e he
          rcases List.mem_cons.mp he with he | he
          · subst he
            exact ⟨rfl, s.count + 1, rfl, Nat.lt_succ_self s.count, hstep⟩
          · obtain ⟨hr, k, hk, hlt, hle⟩ := ihMem e he
            exact ⟨hr, k, hk, Nat.lt_of_succ_lt hlt, hle⟩
        · rw [List.filterMap_cons]
          simp only [mkPollEnvelope]
          rw [List.pairwise_cons]
          refine ⟨?_, ihPw⟩
          intro y hy
          obtain ⟨e, he, hid⟩ := List.mem_filterMap.mp hy
          obtain ⟨_, k, hk, hlt, _⟩ := ihMem e he
          rw [hk] at hid
          exact (Option.some.injEq .. ▸ hid) ▸ hlt

/-- Claim C5: every envelope the polling adapter emits carries the fixed
retry hint `MESSAGE_STREAM_RETRY_TIMEOUT = 15000` ms and a sequence id
drawn from the counter: ids within one run are strictly increasing and
all exceed the counter value at session start; the counter is
process-wide (it never decreases across any session's or producer's
step, so a session starting later sees larger, non-contiguous ids) and
starts at 0 at process start. -/
theorem pollEnvelopes_fixed_retry_monotone_ids (ds : List Bool) (s : PollSt) :
    (∀ e ∈ (runPoll ds s).2.1,
        e.retry = some MESSAGE_STREAM_RETRY_TIMEOUT ∧
        ∃ k, e.id = some k ∧ s.count < k) ∧
    List.Pairwise (fun x y => x < y) ((runPoll ds s).2.1.filterMap Envelope.id) ∧
    MESSAGE_STREAM_RETRY_TIMEOUT = 15000 ∧
    initialPollSt.count = 0 ∧
    (∀ (st : SharedSt) (a : PollAction),
        st.count ≤ ((stepShared st a).getD st).count) := by
  obtain ⟨hMem, _, hPw⟩ := runPoll_retry_ids_aux ds s
  refine ⟨?_, hPw, rfl, rfl, ?_⟩
  · intro e he
    obtain ⟨hr, k, hk, hlt, _⟩ := hMem e he
    exact ⟨hr, k, hk, hlt⟩
  · intro st a
    cases a with
    | appendAct m => simp [stepShared]
    | tickAct sid disc =>
      by_cases hh : sid ∈ st.halted
      · simp [stepShared, hh]
      · cases disc with
        | true => simp [stepShared, hh]
        | false =>
          by_cases hq : st.queue = []
          · simp [stepShared, hh, hq]
          · obtain ⟨p, hp⟩ := Option.isSome_iff_exists.mp (popLast_isSome st.queue hq)
            obtain ⟨x, ys⟩ := p
            simp [stepShared, hh, hq, hp, List.length_eq_zero, Nat.le_succ]

/-- Claim C6: the polling loop checks the peer-disconnect signal at the
top of every iteration, before popping or emitting: a tick that
observes a disconnect halts immediately, changing no state and
emitting nothing; a run whose signals are `false` up to the first
`true` emits exactly what the all-connected prefix emits and then
halts, with no envelope at or after the disconnected tick; and a run
over an empty queue with a connected peer never terminates — it keeps
running with no envelope emitted. -/
theorem disconnect_checked_every_tick :
    (∀ s : PollSt, tick true s = TickResult.halted) ∧
    (∀ (ds₁ ds₂ : List Bool) (s : PollSt), (∀ d ∈ ds₁, d = false) →
        runPoll (ds₁ ++ true :: ds₂) s
          = ((runPoll ds₁ s).1, (runPoll ds₁ s).2.1, RunStatus.halted)) ∧
    (∀ (ds : List Bool) (s : PollSt), (∀ d ∈ ds, d = false) → s.messages = [] →
        runPoll ds s = (s, [], RunStatus.running)) := by
  refine ⟨fun s => rfl, ?_, ?_⟩
  · intro ds₁
    induction ds₁ with
    | nil =>
      intro ds₂ s _
      simp [runPoll, tick]
    | cons d ds₁ ih =>
      intro ds₂ s hall
      have hd : d = false := hall d (List.mem_cons_self d ds₁)
      subst hd
      have hall' : ∀ d ∈ ds₁, d = false := fun d hd => hall d (List.mem_cons_of_mem _ hd)
      rcases tick_false_cases s with ⟨ht, _⟩ | ⟨msg, rest, _, ht⟩
      · rcases hA : runPoll ds₁ s with ⟨sA, esA, stA⟩
        have ih' := ih ds₂ s hall'
        rw [hA] at ih'
        simp only [List.cons_append, runPoll, ht, Option.toList_none, List.nil_append,
          List.append_eq, ih', hA]
      · rcases hA : runPoll ds₁ ⟨rest, s.count + 1⟩ with ⟨sA, esA, stA⟩
        have ih' := ih ds₂ ⟨rest, s.count + 1⟩ hall'
        rw [hA] at ih'
        simp only [List.cons_append, runPoll, ht, Option.toList_some, List.singleton_append,
          List.append_eq, ih', hA]
  · intro ds
    induction ds with
    | nil => intro s _ _; rfl
    | cons d ds ih =>
      intro s hall hm
      have hd : d = false := hall d (List.mem_cons_self d ds)
      subst hd
      have ht : tick false s = TickResult.cont s none := by simp [tick, hm]
      have ih' := ih s (fun d hd => hall d (List.mem_cons_of_mem _ hd)) hm
      simp only [runPoll, ht, ih', Option.toList_none, List.nil_append]

/-- Concrete instance of claim C6's theorem: one connected tick on a
one-element queue, then a disconnected tick; and two connected ticks on
an empty queue. -/
theorem disconnect_checked_every_tick_witness :
    runPoll ([false] ++ true :: [false]) ⟨[("message", "foo")], 0⟩
        = ((runPoll [false] ⟨[("message", "foo")], 0⟩).1,
           (runPoll [false] ⟨[("message", "foo")], 0⟩).2.1, RunStatus.halted) ∧
    runPoll [false, false] ⟨[], 7⟩ = (⟨[], 7⟩, [], RunStatus.running) :=
  ⟨disconnect_checked_every_tick.2.1 [false] [false] ⟨[("message", "foo")], 0⟩ (by decide),
   disconnect_checked_every_tick.2.2 [false, false] ⟨[], 7⟩ (by decide) rfl⟩

lemma perm_middle_last (qt dt : List Nat) (c : Nat) :
    List.Perm ((qt ++ [c]) ++ dt) ((qt ++ dt) ++ [c]) := by
  rw [List.append_assoc, List.append_assoc]
  exact List.Perm.append_left _ List.perm_append_comm

lemma stepShared_preserves_inv (s : SharedSt) (a : PollAction) (s' : SharedSt)
    (hs : SharedInv s) (h : stepShared s a = some s') : SharedInv s' := by
  obtain ⟨hnd, hbd⟩ := hs
  cases a with
  | appendAct m =>
    have h' := Option.some.inj (by simpa [stepShared] using h)
    subst h'
    have htags : tagsOf ⟨s.queue ++ [⟨s.tagCtr, m⟩], s.tagCtr + 1, s.count, s.halted,
        s.deliveries⟩
        = (s.queue.map TaggedMsg.tag ++ [s.tagCtr]) ++ s.deliveries.map Delivery.tag := by
      simp [tagsOf]
    constructor
    · rw [htags]
      rw [(perm_middle_last _ _ _).nodup_iff]
      rw [List.nodup_append]
      refine ⟨hnd, List.nodup_singleton _, ?_⟩
      intro t ht hb
      rw [List.mem_singleton] at hb
      rw [hb] at ht
      exact absurd (hbd _ ht) (lt_irrefl _)
    · intro t ht
      rw [htags] at ht
      rcases List.mem_append.mp ht with ht | ht
      · rcases List.mem_append.mp ht with ht | ht
        · exact Nat.lt_succ_of_lt (hbd t (List.mem_append_left _ ht))
        · rw [List.mem_singleton] at ht
          subst ht
          exact Nat.lt_succ_self _
      · exact Nat.lt_succ_of_lt (hbd t (List.mem_append_right _ ht))
  | tickAct sid disc =>
    by_cases hh : sid ∈ s.halted
    · have h' := Option.some.inj (by simpa [stepShared, hh] using h)
      subst h'
      exact ⟨hnd, hbd⟩
    · cases disc with
      | true =>
        have h' := Option.some.inj (by simpa [stepShared, hh] using h)
        subst h'
        exact ⟨hnd, hbd⟩
      | false =>
        by_cases hq : s.queue = []
        · have h' := Option.some.inj (by simpa [stepShared, hh, hq] using h)
          subst h'
          exact ⟨hnd, hbd⟩
        · obtain ⟨p, hp⟩ := Option.isSome_iff_exists.mp (popLast_isSome s.queue hq)
          obtain ⟨x, ys⟩ := p
          have hsplit := popLast_eq_some s.queue x ys hp
          have h' := Option.some.inj (by simpa [stepShared, hh, hq, hp] using h)
          subst h'
          have htagsOld : tagsOf s
              = (ys.map TaggedMsg.tag ++ [x.tag]) ++ s.deliveries.map Delivery.tag := by
            simp [tagsOf, hsplit]
          have htags : tagsOf ⟨ys, s.tagCtr, s.count + 1, s.halted,
              s.deliveries ++ [⟨sid, x.tag, mkPollEnvelope x.msg (s.count + 1)⟩]⟩
              = (ys.map TaggedMsg.tag ++ s.deliveries.map Delivery.tag) ++ [x.tag] := by
            simp [tagsOf]
          have hperm := perm_middle_last (ys.map TaggedMsg.tag)
            (s.deliveries.map Delivery.tag) x.tag
          constructor
          · rw [htags]
            rw [← hperm.nodup_iff]
            rw [← htagsOld]
            exact hnd
          · intro t ht
            rw [htags] at ht
            have ht' : t ∈ tagsOf s := by
              rw [htagsOld]
              exact hperm.mem_iff.mpr ht
            exact hbd t ht'

lemma runShared_preserves_inv : ∀ (acts : List PollAction) (s s' : SharedSt),
    SharedInv s → runShared s acts = some s' → SharedInv s' := by
  intro acts
  induction acts with
  | nil =>
    intro s s' hs h
    simp only [runShared] at h
    exact (Option.some.inj h) ▸ hs
  | cons a acts ih =>
    intro s s' hs h
    simp only [runShared] at h
    cases hst : stepShared s a with
    | none => rw [hst] at h; exact absurd h (by simp)
    | some s₁ =>
      rw [hst] at h
      exact ih s₁ s' (stepShared_preserves_inv s a s₁ hs hst) h

/-- Claim C7: each queued item is delivered to at most one polling
session.  Starting from any well-tagged shared state and running any
interleaving of session ticks and producer appends, the ghost tags of
all deliveries (across all sessions) are pairwise distinct: no item is
delivered twice and no item's envelope shows up in two sessions'
outputs — consuming an item removes it from the shared queue. -/
theorem pollingQueue_at_most_once (acts : List PollAction) (s s' : SharedSt)
    (hinv : SharedInv s) (hrun : runShared s acts = some s') :
    (s'.deliveries.map Delivery.tag).Nodup ∧
    ∀ d₁ ∈ s'.deliveries, ∀ d₂ ∈ s'.deliveries, d₁.tag = d₂.tag → d₁ = d₂ := by
  have hinv' := runShared_preserves_inv acts s s' hinv hrun
  have hnd : (s'.deliveries.map Delivery.tag).Nodup := by
    have hall := hinv'.1
    rw [tagsOf, List.nodup_append] at hall
    exact hall.2.1
  exact ⟨hnd, fun d₁ h₁ d₂ h₂ he => List.inj_on_of_nodup_map hnd h₁ h₂ he⟩

/-- Concrete instance of claim C7's theorem: two sessions interleaved on
a one-item queue — the first session gets the item, the second finds
the queue empty. -/
theorem pollingQueue_at_most_once_witness :
    ((SharedSt.mk [] 1 1 []
        [Delivery.mk 1 0 (mkPollEnvelope ("message", "foo") 1)]).deliveries.map
        Delivery.tag).Nodup :=
  (pollingQueue_at_most_once [PollAction.tickAct 1 false, PollAction.tickAct 2 false]
      (SharedSt.mk [TaggedMsg.mk 0 ("message", "foo")] 1 0 [] [])
      (SharedSt.mk [] 1 1 [] [Delivery.mk 1 0 (mkPollEnvelope ("message", "foo") 1)])
      (by decide) (by decide)).1

/-- Concrete instance of claim C5's theorem: ids of a two-tick run
starting at counter 5 are strictly increasing. -/
theorem pollEnvelopes_fixed_retry_monotone_ids_witness :
    List.Pairwise (fun x y => x < y)
      ((runPoll [false, false]
          ⟨[("message", "foo"), ("message", "bar")], 5⟩).2.1.filterMap Envelope.id) :=
  (pollEnvelopes_fixed_retry_monotone_ids [false, false]
      ⟨[("message", "foo"), ("message", "bar")], 5⟩).2.1
